import Mathlib

/-!
Verification of the financial / production calculation layer of the
"Entrepreneur Empire" UI repository.  Numbers (JS `number` values) are
embedded as rationals (`ℚ`); computations whose JS result is non-finite
(`NaN` / `Infinity`, arising from division by zero or `Math.pow` of a zero
base with a negative exponent) are embedded as `Option ℚ` returning `none`.
-/

namespace Indle

/-! ### Loan pricing — src/LoanManager.tsx -/

/-- Shape of a loan catalog entry (`LoanOffer` prop, src/LoanManager.tsx). -/
structure LoanOffer where
  minAmount : ℚ
  maxAmount : ℚ
  baseInterestRate : ℚ
  termMonths : ℕ
  creditScoreRequired : ℚ

/-- src/LoanManager.tsx lines 57-59:
`Math.max(0.5, Math.min(2, (850 - creditScore) / 350))`. -/
def creditMultiplier (creditScore : ℚ) : ℚ :=
  max (1/2) (min 2 ((850 - creditScore) / 350))

/-- src/LoanManager.tsx lines 61-64:
`selectedOffer.baseInterestRate * (1 + creditMultiplier * 0.5)`
(the offer is supplied, so the `!selectedOffer` branch does not arise). -/
def adjustedInterestRate (offer : LoanOffer) (creditScore : ℚ) : ℚ :=
  offer.baseInterestRate * (1 + creditMultiplier creditScore * (1/2))

/-- src/LoanManager.tsx lines 66-70:
`rate = adjustedInterestRate / 12;
 loanAmount * rate / (1 - Math.pow(1 + rate, -selectedOffer.termMonths))`.
`none` marks the states where the JS expression is non-finite:
`Math.pow(0, -n)` is `Infinity`, and division by a zero denominator yields
`NaN` or `Infinity` (in particular `rate = 0` gives `0 / 0 = NaN`). -/
def monthlyPayment (offer : LoanOffer) (creditScore loanAmount : ℚ) : Option ℚ :=
  let rate := adjustedInterestRate offer creditScore / 12
  if 1 + rate = 0 then none
  else if 1 - ((1 + rate) ^ offer.termMonths)⁻¹ = 0 then none
  else some (loanAmount * rate / (1 - ((1 + rate) ^ offer.termMonths)⁻¹))

/-- src/LoanManager.tsx lines 72-75:
`creditScore >= selectedOffer.creditScoreRequired`. -/
def canQualify (offer : LoanOffer) (creditScore : ℚ) : Bool :=
  decide (offer.creditScoreRequired ≤ creditScore)

/-- src/LoanManager.tsx lines 77-84: `handleTakeLoan` invokes the
`onTakeLoan` callback exactly when
`canQualify && loanAmount >= minAmount && loanAmount <= maxAmount`;
`some a` records that the callback was invoked with amount `a`,
`none` that it was not invoked. -/
def handleTakeLoan (offer : LoanOffer) (creditScore loanAmount : ℚ) : Option ℚ :=
  if canQualify offer creditScore = true ∧
      offer.minAmount ≤ loanAmount ∧ loanAmount ≤ offer.maxAmount then
    some loanAmount
  else none

/-- Rejection reasons of the loan-qualification contract (spec §4.1/§7). -/
inductive LoanRejectReason
  | creditTooLow
  | amountOutOfRange
deriving DecidableEq

/-- Modelled from the spec: the LoanCalculator qualification result with
reason codes (`credit-too-low` / `amount-out-of-range`) is part of the
reconstructed core module, not of the view code under src/ (the view only
disables the button and skips the callback).  Spec §4.1: "accepted iff
`creditScore ≥ offer.creditScoreRequired` AND `minAmount ≤ amount ≤
maxAmount`. Rejection returns a reason code (`credit-too-low` |
`amount-out-of-range`), never silently clamps." -/
def qualifyLoan (offer : LoanOffer) (creditScore loanAmount : ℚ) :
    Except LoanRejectReason ℚ :=
  if creditScore < offer.creditScoreRequired then
    .error .creditTooLow
  else if loanAmount < offer.minAmount ∨ offer.maxAmount < loanAmount then
    .error .amountOutOfRange
  else
    .ok loanAmount

/-- The loan offer of the worked example: base rate 8%, 12 months. -/
def offerExample : LoanOffer :=
  { minAmount := 1000
    maxAmount := 50000
    baseInterestRate := 8/100
    termMonths := 12
    creditScoreRequired := 300 }

/-- C1: At `creditScore = 850` the multiplier clamps to `0.5`, the
adjusted rate of an 8%-base offer is `0.10`, and the monthly payment of a
12-month `$10,000` loan is `≈ $879.16` (it lies in `[879.155, 879.165)`,
hence rounds to `879.16`). -/
theorem loan_pricing_example :
    creditMultiplier 850 = 1/2 ∧
    adjustedInterestRate offerExample 850 = 1/10 ∧
    ∃ p, monthlyPayment offerExample 850 10000 = some p ∧
      879155/1000 ≤ p ∧ p < 879165/1000 := by
  refine ⟨by norm_num [creditMultiplier], by norm_num [adjustedInterestRate, creditMultiplier, offerExample], ?_⟩
  refine ⟨10000 * ((1/10)/12) / (1 - ((1 + (1/10)/12) ^ 12)⁻¹), ?_, by norm_num, by norm_num⟩
  show monthlyPayment offerExample 850 10000 = _
  rw [monthlyPayment]
  norm_num [adjustedInterestRate, creditMultiplier, offerExample]

/-- A zero-interest offer: `baseInterestRate = 0` makes the adjusted
monthly rate zero. -/
def offerZeroRate : LoanOffer :=
  { minAmount := 1000
    maxAmount := 50000
    baseInterestRate := 0
    termMonths := 12
    creditScoreRequired := 300 }

/-- C2: The payment formula of src/LoanManager.tsx lines 66-70 does
*not* handle the limiting case of a zero adjusted monthly rate: with
`baseInterestRate = 0` the denominator `1 - (1 + 0)^(-12)` is zero and the
JS expression evaluates to `0 / 0 = NaN` (embedded as `none`) instead of
the amortization limit `amount / termMonths = 10000 / 12`. -/
theorem monthlyPayment_zero_rate_not_finite :
    monthlyPayment offerZeroRate 850 10000 = none ∧
    adjustedInterestRate offerZeroRate 850 / 12 = 0 ∧
    monthlyPayment offerZeroRate 850 10000 ≠ some (10000 / 12) := by
  have h : monthlyPayment offerZeroRate 850 10000 = none := by
    rw [monthlyPayment]
    norm_num [adjustedInterestRate, creditMultiplier, offerZeroRate]
  refine ⟨h, ?_, ?_⟩
  · norm_num [adjustedInterestRate, creditMultiplier, offerZeroRate]
  · rw [h]; exact fun hc => Option.noConfusion hc

/-- C3: A loan application invokes the take-loan callback iff
`creditScoreRequired ≤ creditScore` and `minAmount ≤ amount ≤ maxAmount`;
the amount forwarded to the callback is exactly the requested amount
(never clamped); and the spec-modelled qualification result agrees with
the view gate, rejecting with `credit-too-low` exactly when the credit
bound fails and with `amount-out-of-range` exactly when the credit bound
holds but the amount bound fails. -/
theorem loan_application_accept_iff (offer : LoanOffer) (s a : ℚ) :
    ((handleTakeLoan offer s a).isSome ↔
      offer.creditScoreRequired ≤ s ∧ offer.minAmount ≤ a ∧ a ≤ offer.maxAmount) ∧
    (∀ a', handleTakeLoan offer s a = some a' → a' = a) ∧
    (qualifyLoan offer s a = .ok a ↔ (handleTakeLoan offer s a).isSome) ∧
    (qualifyLoan offer s a = .error .creditTooLow ↔ s < offer.creditScoreRequired) ∧
    (qualifyLoan offer s a = .error .amountOutOfRange ↔
      offer.creditScoreRequired ≤ s ∧ (a < offer.minAmount ∨ offer.maxAmount < a)) := by
  unfold handleTakeLoan qualifyLoan canQualify
  by_cases hs : offer.creditScoreRequired ≤ s
  · have hs' : ¬ s < offer.creditScoreRequired := not_lt.mpr hs
    by_cases hlo : offer.minAmount ≤ a
    · by_cases hhi : a ≤ offer.maxAmount
      · have hr : ¬ (a < offer.minAmount ∨ offer.maxAmount < a) := by
          push_neg
          exact ⟨hlo, hhi⟩
        simp [hs, hs', hlo, hhi, hr]
      · have hr : a < offer.minAmount ∨ offer.maxAmount < a := .inr (not_le.mp hhi)
        simp [hs, hs', hlo, hhi, hr]
    · have hr : a < offer.minAmount ∨ offer.maxAmount < a := .inl (not_le.mp hlo)
      simp [hs, hs', hlo, hr]
  · have hs' : s < offer.creditScoreRequired := not_le.mp hs
    simp [hs, hs']

/-- Concrete instance of `loan_application_accept_iff`: the example offer
accepts a `$10,000` request at score 850 and forwards exactly `$10,000`. -/
theorem loan_application_accept_iff_witness :
    (handleTakeLoan offerExample 850 10000).isSome ∧
    handleTakeLoan offerExample 850 10000 = some 10000 := by
  have h := loan_application_accept_iff offerExample 850 10000
  have hmem : offerExample.creditScoreRequired ≤ 850 ∧
      offerExample.minAmount ≤ 10000 ∧ (10000 : ℚ) ≤ offerExample.maxAmount := by
    refine ⟨?_, ?_, ?_⟩ <;> norm_num [offerExample]
  refine ⟨h.1.mpr hmem, ?_⟩
  have hsome := h.1.mpr hmem
  rcases Option.isSome_iff_exists.mp hsome with ⟨a', ha'⟩
  rw [ha', h.2.1 a' ha']

/-- Bernoulli-style bound used for the no-negative-interest property:
for `0 ≤ r`, `(1 - n·r) · (1 + r)^n ≤ 1`. -/
theorem one_sub_nsmul_mul_pow_le_one (n : ℕ) (r : ℚ) (hr : 0 ≤ r) :
    (1 - n * r) * (1 + r) ^ n ≤ 1 := by
  induction n with
  | zero => simp
  | succ n ih =>
    have hpow : (0 : ℚ) ≤ (1 + r) ^ n := pow_nonneg (by linarith) n
    have hstep : (1 - (n + 1 : ℕ) * r) * (1 + r) ≤ 1 - n * r := by
      push_cast
      nlinarith [mul_self_nonneg r]
    calc (1 - (n + 1 : ℕ) * r) * (1 + r) ^ (n + 1)
        = ((1 - (n + 1 : ℕ) * r) * (1 + r)) * (1 + r) ^ n := by ring
      _ ≤ (1 - n * r) * (1 + r) ^ n := mul_le_mul_of_nonneg_right hstep hpow
      _ ≤ 1 := ih

/-- C6: For every valid input — an offer with positive base rate and
positive term, a requested amount within `[minAmount, maxAmount]` with a
non-negative lower bound — the monthly payment is a well-defined value `p`
with `amount ≤ p · termMonths` (interest is never negative) and the
adjusted rate is at least the base rate. -/
theorem loan_total_repaid_ge_principal (offer : LoanOffer) (s a : ℚ)
    (hbase : 0 < offer.baseInterestRate) (hterm : 0 < offer.termMonths)
    (hmin : 0 ≤ offer.minAmount) (hlo : offer.minAmount ≤ a)
    (hhi : a ≤ offer.maxAmount) :
    (∃ p, monthlyPayment offer s a = some p ∧ a ≤ p * offer.termMonths) ∧
    offer.baseInterestRate ≤ adjustedInterestRate offer s := by
  have ha : 0 ≤ a := le_trans hmin hlo
  have hmul : 1/2 ≤ creditMultiplier s := le_max_left _ _
  have hadj : offer.baseInterestRate ≤ adjustedInterestRate offer s := by
    unfold adjustedInterestRate
    nlinarith
  have hadjpos : 0 < adjustedInterestRate offer s := lt_of_lt_of_le hbase hadj
  set r : ℚ := adjustedInterestRate offer s / 12 with hrdef
  have hrpos : 0 < r := by positivity
  have hbase1 : (1 : ℚ) < 1 + r := by linarith
  have hbpos : (0 : ℚ) < 1 + r := by linarith
  have hpow1 : (1 : ℚ) < (1 + r) ^ offer.termMonths :=
    one_lt_pow₀ hbase1 (by omega)
  have hpowpos : (0 : ℚ) < (1 + r) ^ offer.termMonths := by positivity
  have hinv1 : ((1 + r) ^ offer.termMonths)⁻¹ < 1 := by
    rw [inv_lt_one_iff₀]
    exact .inr hpow1
  have hinvpos : (0 : ℚ) < ((1 + r) ^ offer.termMonths)⁻¹ := by positivity
  set D : ℚ := 1 - ((1 + r) ^ offer.termMonths)⁻¹ with hDdef
  have hDpos : 0 < D := by simp only [hDdef]; linarith
  have hDne : D ≠ 0 := ne_of_gt hDpos
  have hb0 : ¬ (1 + r = 0) := by linarith
  have hpay : monthlyPayment offer s a = some (a * r / D) := by
    rw [monthlyPayment]
    simp only [← hrdef, ← hDdef, if_neg hb0, if_neg hDne]
  refine ⟨⟨a * r / D, hpay, ?_⟩, hadj⟩
  have hD_le : D ≤ offer.termMonths * r := by
    have hber := one_sub_nsmul_mul_pow_le_one offer.termMonths r (le_of_lt hrpos)
    have h1 : 1 - (offer.termMonths : ℚ) * r ≤ ((1 + r) ^ offer.termMonths)⁻¹ := by
      rw [← one_div, le_div_iff₀ hpowpos]
      linarith [hber]
    simp only [hDdef]
    linarith
  calc a = a * 1 := by ring
    _ ≤ a * ((offer.termMonths : ℚ) * r / D) := by
        apply mul_le_mul_of_nonneg_left _ ha
        rw [le_div_iff₀ hDpos]
        linarith
    _ = a * r / D * offer.termMonths := by ring

/-- Concrete instance of `loan_total_repaid_ge_principal`: for the worked
example the twelve payments total at least the `$10,000` principal. -/
theorem loan_total_repaid_ge_principal_witness :
    (∃ p, monthlyPayment offerExample 850 10000 = some p ∧
      (10000 : ℚ) ≤ p * offerExample.termMonths) ∧
    offerExample.baseInterestRate ≤ adjustedInterestRate offerExample 850 :=
  loan_total_repaid_ge_principal offerExample 850 10000
    (by norm_num [offerExample]) (by norm_num [offerExample])
    (by norm_num [offerExample]) (by norm_num [offerExample])
    (by norm_num [offerExample])

/-! ### Share trading — src/CompanyCard.tsx and src/RealCompaniesModal.tsx
(the latter file also contains `RealCompanyCard`). -/

/-- src/CompanyCard.tsx line 26 and RealCompanyCard:
`sharesBuyable = 100 - company.sharesOwned`. -/
def sharesBuyable (sharesOwned : ℚ) : ℚ := 100 - sharesOwned

/-- RealCompanyCard: price shown per 1% of a real company,
`company.marketValue * 0.01`. -/
def costPerOnePercent (marketValue : ℚ) : ℚ := marketValue * (1/100)

/-- Cost of buying `p`% of a company priced per 1% as in RealCompanyCard. -/
def buyCost (marketValue p : ℚ) : ℚ := p * costPerOnePercent marketValue

/-- RealCompanyCard buy section: the percentage catalog `[1, 5, 10]`. -/
def realTradePercentages : List ℚ := [1, 5, 10]

/-- RealCompanyCard buy actions: the buy section renders when
`sharesBuyable > 0` and offers `[1, 5, 10].filter(p => p <= sharesBuyable)`;
a buy request for `p` is forwarded to `onBuyShares` exactly when `p` is in
this list.  No cash condition appears. -/
def realBuyButtons (sharesOwned : ℚ) : List ℚ :=
  if 0 < sharesBuyable sharesOwned then
    realTradePercentages.filter (fun p => decide (p ≤ sharesBuyable sharesOwned))
  else []

/-- RealCompanyCard sell actions: the sell section renders when
`sharesOwned > 0` and offers `[1, 5, 10].filter(p => p <= sharesOwned)`. -/
def realSellButtons (sharesOwned : ℚ) : List ℚ :=
  if 0 < sharesOwned then
    realTradePercentages.filter (fun p => decide (p ≤ sharesOwned))
  else []

/-- src/CompanyCard.tsx: the trading percentage catalog `[5, 10, 20]`. -/
def companyTradePercentages : List ℚ := [5, 10, 20]

/-- src/CompanyCard.tsx lines 99-117: the buy button for `p` is clickable
when the section renders (`sharesBuyable > 0`) and the button is not
disabled (`!(sharesBuyable < p)`).  No cash condition appears. -/
def companyBuyEnabled (sharesOwned p : ℚ) : Bool :=
  decide (0 < sharesBuyable sharesOwned) && !decide (sharesBuyable sharesOwned < p)

/-- src/CompanyCard.tsx lines 119-138: the sell button for `p` is clickable
when `sharesOwned > 0` and not `sharesOwned < p`. -/
def companySellEnabled (sharesOwned p : ℚ) : Bool :=
  decide (0 < sharesOwned) && !decide (sharesOwned < p)

/-- Trading error of the spec's TradingLedger (spec §4.3/§7). -/
inductive TradeError
  | exceedsAvailableShares
deriving DecidableEq

/-- Modelled from the spec: the TradingLedger buy operation with the
`ExceedsAvailableShares` error is part of the reconstructed core module,
not of the view code under src/ (the view only hides or disables the
button).  Spec §4.3: "fails with `ExceedsAvailableShares` if
`currentOwnership + percentage > 100` ... On success, ownership increases
by exactly `percentage`." -/
def ledgerBuy (currentOwnership percentage : ℚ) : Except TradeError ℚ :=
  if 100 < currentOwnership + percentage then .error .exceedsAvailableShares
  else .ok (currentOwnership + percentage)

/-- A user trade intent: buy or sell a percentage of one holding. -/
inductive TradeOp
  | buy (p : ℚ)
  | sell (p : ℚ)

/-- One trade against a player-created company: the ownership change the
CompanyCard buttons can produce.  A request outside the rendered, enabled
buttons leaves ownership unchanged. -/
def companyTradeStep (own : ℚ) : TradeOp → ℚ
  | .buy p => if p ∈ companyTradePercentages ∧ companyBuyEnabled own p then own + p else own
  | .sell p => if p ∈ companyTradePercentages ∧ companySellEnabled own p then own - p else own

/-- One trade against a real company: the ownership change the
RealCompanyCard buttons can produce. -/
def realTradeStep (own : ℚ) : TradeOp → ℚ
  | .buy p => if p ∈ realBuyButtons own then own + p else own
  | .sell p => if p ∈ realSellButtons own then own - p else own

/-- C4 counterexample: The claim "the cash check is enforced by the
calling layer before the buy callback is invoked" is false: with
`sharesOwned = 0`, `marketValue = 1,000,000` and zero available cash, the
buy-5% button of RealCompanyCard is rendered and forwards to `onBuyShares`
(5 is in the button list) even though the cost `$50,000` exceeds the
available cash `$0`. -/
theorem buy_forwarded_without_cash_check :
    (5 : ℚ) ∈ realBuyButtons 0 ∧
    buyCost 1000000 5 = 50000 ∧
    (0 : ℚ) < buyCost 1000000 5 := by
  refine ⟨?_, by norm_num [buyCost, costPerOnePercent], by norm_num [buyCost, costPerOnePercent]⟩
  rw [realBuyButtons]
  norm_num [sharesBuyable, realTradePercentages]

/-- C4 amended: The cost of buying `p`% is
`marketValue × (p / 100)`, and the visible layer forwards a buy request
for a real company exactly when `p` is one of `1, 5, 10`, some share is
still buyable, and `p ≤ 100 - sharesOwned` — a condition that does not
involve the player's cash; no cash check happens before the buy callback
is invoked. -/
theorem buy_forward_condition (marketValue p own : ℚ) :
    buyCost marketValue p = marketValue * (p / 100) ∧
    (p ∈ realBuyButtons own ↔
      (p = 1 ∨ p = 5 ∨ p = 10) ∧ 0 < 100 - own ∧ p ≤ 100 - own) := by
  constructor
  · unfold buyCost costPerOnePercent
    ring
  · rw [realBuyButtons]
    by_cases h : 0 < sharesBuyable own
    · rw [if_pos h]
      simp only [List.mem_filter, decide_eq_true_eq, sharesBuyable] at *
      constructor
      · rintro ⟨hmem, hle⟩
        simp only [realTradePercentages, List.mem_cons, List.mem_singleton,
          List.not_mem_nil, or_false] at hmem
        exact ⟨hmem, h, hle⟩
      · rintro ⟨hmem, -, hle⟩
        refine ⟨?_, hle⟩
        simp only [realTradePercentages, List.mem_cons, List.mem_singleton]
        tauto
    · rw [if_neg h]
      simp only [List.not_mem_nil, false_iff, sharesBuyable] at *
      rintro ⟨-, hpos, -⟩
      exact h hpos

/-- One CompanyCard trade keeps ownership inside `[0, 100]`. -/
theorem companyTradeStep_bounds (own : ℚ) (op : TradeOp)
    (h0 : 0 ≤ own) (h1 : own ≤ 100) :
    0 ≤ companyTradeStep own op ∧ companyTradeStep own op ≤ 100 := by
  cases op with
  | buy p =>
    rw [companyTradeStep]
    split
    · rename_i h
      obtain ⟨hmem, hen⟩ := h
      simp only [companyBuyEnabled, sharesBuyable, Bool.and_eq_true,
        decide_eq_true_eq, Bool.not_eq_true', decide_eq_false_iff_not, not_lt] at hen
      have hp : 0 < p := by
        simp only [companyTradePercentages, List.mem_cons,
          List.not_mem_nil, or_false] at hmem
        rcases hmem with h | h | h <;> rw [h] <;> norm_num
      exact ⟨by linarith, by linarith [hen.2]⟩
    · exact ⟨h0, h1⟩
  | sell p =>
    rw [companyTradeStep]
    split
    · rename_i h
      obtain ⟨hmem, hen⟩ := h
      simp only [companySellEnabled, Bool.and_eq_true,
        decide_eq_true_eq, Bool.not_eq_true', decide_eq_false_iff_not, not_lt] at hen
      have hp : 0 < p := by
        simp only [companyTradePercentages, List.mem_cons,
          List.not_mem_nil, or_false] at hmem
        rcases hmem with h | h | h <;> rw [h] <;> norm_num
      exact ⟨by linarith [hen.2], by linarith⟩
    · exact ⟨h0, h1⟩

/-- One RealCompanyCard trade keeps ownership inside `[0, 100]`. -/
theorem realTradeStep_bounds (own : ℚ) (op : TradeOp)
    (h0 : 0 ≤ own) (h1 : own ≤ 100) :
    0 ≤ realTradeStep own op ∧ realTradeStep own op ≤ 100 := by
  cases op with
  | buy p =>
    rw [realTradeStep]
    split
    · rename_i h
      rw [realBuyButtons] at h
      split at h
      · simp only [List.mem_filter, decide_eq_true_eq, sharesBuyable] at h
        obtain ⟨hmem, hle⟩ := h
        have hp : 0 < p := by
          simp only [realTradePercentages, List.mem_cons,
            List.not_mem_nil, or_false] at hmem
          rcases hmem with h | h | h <;> rw [h] <;> norm_num
        exact ⟨by linarith, by linarith⟩
      · exact absurd h (List.not_mem_nil p)
    · exact ⟨h0, h1⟩
  | sell p =>
    rw [realTradeStep]
    split
    · rename_i h
      rw [realSellButtons] at h
      split at h
      · simp only [List.mem_filter, decide_eq_true_eq] at h
        obtain ⟨hmem, hle⟩ := h
        have hp : 0 < p := by
          simp only [realTradePercentages, List.mem_cons,
            List.not_mem_nil, or_false] at hmem
          rcases hmem with h | h | h <;> rw [h] <;> norm_num
        exact ⟨by linarith, by linarith⟩
      · exact absurd h (List.not_mem_nil p)
    · exact ⟨h0, h1⟩

/-- Any sequence of CompanyCard trades keeps ownership inside `[0, 100]`. -/
theorem companyTrade_foldl_bounds (ops : List TradeOp) (own : ℚ)
    (h0 : 0 ≤ own) (h1 : own ≤ 100) :
    0 ≤ ops.foldl companyTradeStep own ∧ ops.foldl companyTradeStep own ≤ 100 := by
  induction ops generalizing own with
  | nil => exact ⟨h0, h1⟩
  | cons op ops ih =>
    obtain ⟨g0, g1⟩ := companyTradeStep_bounds own op h0 h1
    exact ih (companyTradeStep own op) g0 g1

/-- Any sequence of RealCompanyCard trades keeps ownership inside `[0, 100]`. -/
theorem realTrade_foldl_bounds (ops : List TradeOp) (own : ℚ)
    (h0 : 0 ≤ own) (h1 : own ≤ 100) :
    0 ≤ ops.foldl realTradeStep own ∧ ops.foldl realTradeStep own ≤ 100 := by
  induction ops generalizing own with
  | nil => exact ⟨h0, h1⟩
  | cons op ops ih =>
    obtain ⟨g0, g1⟩ := realTradeStep_bounds own op h0 h1
    exact ih (realTradeStep own op) g0 g1

/-- C5: A buy can only be issued when `ownership + p ≤ 100` (the
spec-modelled ledger otherwise fails with `ExceedsAvailableShares` and the
view gate is then disabled), a sell only when `p ≤ ownership`, and after
any sequence of buys and sells — on either card — ownership starting in
`[0, 100]` remains in `[0, 100]`. -/
theorem ownership_invariant (own : ℚ) (ops : List TradeOp)
    (h0 : 0 ≤ own) (h1 : own ≤ 100) :
    (∀ p, companyBuyEnabled own p = true → own + p ≤ 100) ∧
    (∀ p, p ∈ realBuyButtons own → own + p ≤ 100) ∧
    (∀ p, 100 < own + p →
      ledgerBuy own p = .error .exceedsAvailableShares ∧
      companyBuyEnabled own p = false ∧ p ∉ realBuyButtons own) ∧
    (∀ p, companyBuyEnabled own p = true → ledgerBuy own p = .ok (own + p)) ∧
    (∀ p, companySellEnabled own p = true → p ≤ own) ∧
    (∀ p, p ∈ realSellButtons own → p ≤ own) ∧
    (0 ≤ ops.foldl companyTradeStep own ∧ ops.foldl companyTradeStep own ≤ 100) ∧
    (0 ≤ ops.foldl realTradeStep own ∧ ops.foldl realTradeStep own ≤ 100) := by
  have hbuyEn : ∀ p, companyBuyEnabled own p = true → own + p ≤ 100 := by
    intro p hp
    simp only [companyBuyEnabled, sharesBuyable, Bool.and_eq_true, decide_eq_true_eq,
      Bool.not_eq_true', decide_eq_false_iff_not, not_lt] at hp
    linarith [hp.2]
  have hbuyReal : ∀ p, p ∈ realBuyButtons own → own + p ≤ 100 := by
    intro p hp
    rw [realBuyButtons] at hp
    split at hp
    · simp only [List.mem_filter, decide_eq_true_eq, sharesBuyable] at hp
      linarith [hp.2]
    · exact absurd hp (List.not_mem_nil p)
  refine ⟨hbuyEn, hbuyReal, ?_, ?_, ?_, ?_, ?_, ?_⟩
  · intro p hp
    refine ⟨by rw [ledgerBuy, if_pos hp], ?_, ?_⟩
    · by_contra hc
      have := hbuyEn p (by
        cases hb : companyBuyEnabled own p
        · exact absurd hb hc
        · rfl)
      linarith
    · intro hmem
      linarith [hbuyReal p hmem]
  · intro p hp
    rw [ledgerBuy, if_neg (not_lt.mpr (hbuyEn p hp))]
  · intro p hp
    simp only [companySellEnabled, Bool.and_eq_true, decide_eq_true_eq,
      Bool.not_eq_true', decide_eq_false_iff_not, not_lt] at hp
    exact hp.2
  · intro p hp
    rw [realSellButtons] at hp
    split at hp
    · simp only [List.mem_filter, decide_eq_true_eq] at hp
      exact hp.2
    · exact absurd hp (List.not_mem_nil p)
  · exact companyTrade_foldl_bounds ops own h0 h1
  · exact realTrade_foldl_bounds ops own h0 h1

/-- Concrete instance of `ownership_invariant`: starting from 50%
ownership, buying 20% then selling 10% keeps ownership within `[0, 100]`. -/
theorem ownership_invariant_witness :
    0 ≤ [TradeOp.buy 20, TradeOp.sell 10].foldl companyTradeStep 50 ∧
    [TradeOp.buy 20, TradeOp.sell 10].foldl companyTradeStep 50 ≤ 100 :=
  (ownership_invariant 50 [TradeOp.buy 20, TradeOp.sell 10]
    (by norm_num) (by norm_num)).2.2.2.2.2.2.1

/-! ### Box office production — src/SaveManager.tsx (second component in
the file, `BoxOfficeManager`). -/

/-- Project type discriminator (`'movie' | 'series' | 'documentary'`). -/
inductive ProjectType
  | movie
  | series
  | documentary
deriving DecidableEq

/-- One entry of the `PROJECT_TYPES` catalog (budget band only; name,
icon and display strings are presentation data). -/
structure ProjectTypeInfo where
  type : ProjectType
  minBudget : ℚ
  maxBudget : ℚ
deriving DecidableEq

/-- src/SaveManager.tsx lines 367-395: the `PROJECT_TYPES` catalog
(movie `$1M`-`$300M`, series `$500K`-`$20M`, documentary `$100K`-`$5M`). -/
def PROJECT_TYPES : List ProjectTypeInfo :=
  [⟨.movie, 1000000, 300000000⟩,
   ⟨.series, 500000, 20000000⟩,
   ⟨.documentary, 100000, 5000000⟩]

/-- src/SaveManager.tsx line 415:
`PROJECT_TYPES.find(p => p.type === selectedProjectType)`. -/
def selectedProjectTypeInfo (t : ProjectType) : Option ProjectTypeInfo :=
  PROJECT_TYPES.find? (fun p => decide (p.type = t))

/-- src/SaveManager.tsx lines 445-462: `getBudgetCategory(budget,
projectType)`, a pure step function on tier-specific thresholds.  The
source's `default` branch returning `'Standard'` is unreachable for the
three-valued type. -/
def getBudgetCategory (budget : ℚ) (projectType : ProjectType) : String :=
  match projectType with
  | .movie =>
    if budget < 10000000 then "Independent"
    else if budget < 75000000 then "Mid-Budget"
    else "Blockbuster"
  | .series =>
    if budget < 2000000 then "Cable TV"
    else if budget < 10000000 then "Premium TV"
    else "Prestige Series"
  | .documentary =>
    if budget < 500000 then "Independent"
    else if budget < 2000000 then "Network"
    else "Major Production"

/-- src/SaveManager.tsx lines 464-467: `currentCash >= budget`. -/
def canAffordProject (currentCash budget : ℚ) : Bool :=
  decide (budget ≤ currentCash)

/-- src/SaveManager.tsx lines 469-476: `handleStartProject` invokes
`onStartProject` exactly when a company is selected, the project type has
a catalog entry, and `canAffordProject` holds. -/
def handleStartProjectFires (companySelected : Bool) (t : ProjectType)
    (currentCash budget : ℚ) : Bool :=
  companySelected && (selectedProjectTypeInfo t).isSome &&
    canAffordProject currentCash budget

/-- The budget-relevant component state of `BoxOfficeManager`
(src/SaveManager.tsx lines 406-408): the selected project type and the
slider-driven budget. -/
structure BoxOfficeState where
  selectedProjectType : ProjectType
  budget : ℚ
deriving DecidableEq

/-- src/SaveManager.tsx lines 407-408: initial state
`selectedProjectType = 'movie'`, `budget = 1000000`. -/
def initialBoxOfficeState : BoxOfficeState := ⟨.movie, 1000000⟩

/-- States the `BoxOfficeManager` component can reach: the initial state;
clicking a project-type card (lines 576-579), which sets the type and
resets the budget to that type's `minBudget`; and a budget-slider change
(lines 607-614), where the external `ui/Slider` with
`min = selectedProjectTypeInfo.minBudget` and
`max = selectedProjectTypeInfo.maxBudget` only emits values within those
props. -/
inductive BoxOfficeReachable : BoxOfficeState → Prop
  | init : BoxOfficeReachable initialBoxOfficeState
  | selectType {s : BoxOfficeState} (info : ProjectTypeInfo)
      (hmem : info ∈ PROJECT_TYPES) (h : BoxOfficeReachable s) :
      BoxOfficeReachable ⟨info.type, info.minBudget⟩
  | slider {s : BoxOfficeState} (v : ℚ) (info : ProjectTypeInfo)
      (h : BoxOfficeReachable s)
      (hinfo : selectedProjectTypeInfo s.selectedProjectType = some info)
      (hlo : info.minBudget ≤ v) (hhi : v ≤ info.maxBudget) :
      BoxOfficeReachable ⟨s.selectedProjectType, v⟩

/-- In every reachable `BoxOfficeManager` state the budget lies inside
the selected project type's `[minBudget, maxBudget]` band. -/
theorem boxOffice_budget_in_band {s : BoxOfficeState}
    (h : BoxOfficeReachable s) :
    ∃ info, selectedProjectTypeInfo s.selectedProjectType = some info ∧
      info.minBudget ≤ s.budget ∧ s.budget ≤ info.maxBudget := by
  induction h with
  | init =>
    exact ⟨⟨.movie, 1000000, 300000000⟩, rfl, by norm_num [initialBoxOfficeState],
      by norm_num [initialBoxOfficeState]⟩
  | selectType info hmem h ih =>
    simp only [PROJECT_TYPES, List.mem_cons, List.not_mem_nil, or_false] at hmem
    rcases hmem with hh | hh | hh <;> subst hh <;>
      exact ⟨_, rfl, le_refl _, by norm_num⟩
  | slider v info h hinfo hlo hhi ih =>
    exact ⟨info, hinfo, hlo, hhi⟩

/-- Error result of starting a production project (spec §4.4/§7). -/
inductive StartProjectError
  | budgetOutOfRange
  | insufficientFunds
deriving DecidableEq

/-- Modelled from the spec: the project-start validation returning
`BudgetOutOfRange` / `InsufficientFunds` is part of the reconstructed
ProductionOutcomeModel, not of the view code under src/ (the view keeps
the budget in band via the slider and disables the button on
`!canAffordProject`).  Spec §4.4: "Starting a project fails with
`BudgetOutOfRange` if requested budget is outside the selected type's
band, and with `InsufficientFunds` if budget exceeds available cash." -/
def startProject (currentCash budget : ℚ) (info : ProjectTypeInfo) :
    Except StartProjectError Unit :=
  if budget < info.minBudget ∨ info.maxBudget < budget then
    .error .budgetOutOfRange
  else if currentCash < budget then
    .error .insufficientFunds
  else
    .ok ()

/-- C7: Starting a project fails with `BudgetOutOfRange` exactly when
the budget is outside the selected type's band (the bands being movie
`$1M`-`$300M`, series `$500K`-`$20M`, documentary `$100K`-`$5M`), fails
with `InsufficientFunds` exactly when the budget is in band but exceeds
available cash, and the `onStartProject` callback never fires in either
failure case: the view gate is false whenever cash is short, and every
reachable component state keeps the budget inside the band. -/
theorem project_start_validation (cash b : ℚ) (info : ProjectTypeInfo)
    (s : BoxOfficeState) :
    (startProject cash b info = .error .budgetOutOfRange ↔
      b < info.minBudget ∨ info.maxBudget < b) ∧
    (startProject cash b info = .error .insufficientFunds ↔
      (info.minBudget ≤ b ∧ b ≤ info.maxBudget) ∧ cash < b) ∧
    (startProject cash b info = .ok () ↔
      info.minBudget ≤ b ∧ b ≤ info.maxBudget ∧ b ≤ cash) ∧
    (selectedProjectTypeInfo .movie = some ⟨.movie, 1000000, 300000000⟩ ∧
      selectedProjectTypeInfo .series = some ⟨.series, 500000, 20000000⟩ ∧
      selectedProjectTypeInfo .documentary = some ⟨.documentary, 100000, 5000000⟩) ∧
    (∀ sel t, cash < b → handleStartProjectFires sel t cash b = false) ∧
    (BoxOfficeReachable s →
      ∃ i, selectedProjectTypeInfo s.selectedProjectType = some i ∧
        i.minBudget ≤ s.budget ∧ s.budget ≤ i.maxBudget) := by
  refine ⟨?_, ?_, ?_, ⟨rfl, rfl, rfl⟩, ?_, boxOffice_budget_in_band⟩
  · rw [startProject]
    by_cases hband : b < info.minBudget ∨ info.maxBudget < b
    · simp [hband]
    · rw [if_neg hband]
      split <;> simp [hband]
  · rw [startProject]
    by_cases hband : b < info.minBudget ∨ info.maxBudget < b
    · rw [if_pos hband]
      constructor
      · intro hc
        exact absurd hc (by simp)
      · rintro ⟨⟨hlo, hhi⟩, -⟩
        rcases hband with h | h <;> linarith
    · rw [if_neg hband]
      push_neg at hband
      by_cases hc : cash < b
      · simp [hc, hband]
      · simp [hc]
  · rw [startProject]
    by_cases hband : b < info.minBudget ∨ info.maxBudget < b
    · rw [if_pos hband]
      constructor
      · intro hc
        exact absurd hc (by simp)
      · rintro ⟨hlo, hhi, -⟩
        rcases hband with h | h <;> linarith
    · rw [if_neg hband]
      push_neg at hband
      by_cases hc : cash < b
      · simp [hc, hband, not_le.mpr hc]
      · simp [hc, hband, not_lt.mp hc]
  · intro sel t hc
    simp only [handleStartProjectFires, canAffordProject, Bool.and_eq_false_iff]
    right
    simpa using not_le.mpr hc

/-- Concrete instance of `project_start_validation`: with `$0` cash a
`$200,000` documentary is in band but fails with `InsufficientFunds`. -/
theorem project_start_validation_witness :
    startProject 0 200000 ⟨.documentary, 100000, 5000000⟩ =
      .error .insufficientFunds :=
  (project_start_validation 0 200000 ⟨.documentary, 100000, 5000000⟩
      initialBoxOfficeState).2.1.mpr
    ⟨⟨by norm_num, by norm_num⟩, by norm_num⟩

/-- C8: Budget category classification for movies: below `$10M` the
category is `Independent`, from `$10M` below `$75M` it is `Mid-Budget`,
from `$75M` it is `Blockbuster`; in particular a `$5M` movie is
`Independent` and a `$50M` movie is `Mid-Budget`. -/
theorem budget_category_movie (b : ℚ) :
    (b < 10000000 → getBudgetCategory b .movie = "Independent") ∧
    (10000000 ≤ b → b < 75000000 → getBudgetCategory b .movie = "Mid-Budget") ∧
    (75000000 ≤ b → getBudgetCategory b .movie = "Blockbuster") ∧
    getBudgetCategory 5000000 .movie = "Independent" ∧
    getBudgetCategory 50000000 .movie = "Mid-Budget" := by
  refine ⟨?_, ?_, ?_, ?_, ?_⟩
  · intro h
    rw [getBudgetCategory, if_pos h]
  · intro h1 h2
    rw [getBudgetCategory, if_neg (not_lt.mpr h1), if_pos h2]
  · intro h
    rw [getBudgetCategory, if_neg (by linarith), if_neg (not_lt.mpr (by linarith))]
  · norm_num [getBudgetCategory]
  · norm_num [getBudgetCategory]

/-- Concrete instance of `budget_category_movie`: a `$5M` movie is
`Independent`. -/
theorem budget_category_movie_witness :
    getBudgetCategory 5000000 .movie = "Independent" :=
  (budget_category_movie 5000000).1 (by norm_num)

/-! ### Auto-investment planner — src/AutoBoxOfficeSettings.tsx -/

/-- src/AutoBoxOfficeSettings.tsx lines 82-85:
`availableCash = Math.max(0, currentCash - minCashReserve);
 availableCash * maxInvestmentPercentage`. -/
def estimatedBudget (currentCash minCashReserve maxInvestmentPercentage : ℚ) : ℚ :=
  max 0 (currentCash - minCashReserve) * maxInvestmentPercentage

/-- src/AutoBoxOfficeSettings.tsx line 95:
`estimatedBudget() >= 100000`. -/
def canAffordRealisticProduction
    (currentCash minCashReserve maxInvestmentPercentage : ℚ) : Bool :=
  decide (100000 ≤ estimatedBudget currentCash minCashReserve maxInvestmentPercentage)

/-- C9: The estimated auto-investment budget is non-negative whenever
the investment percentage is non-negative (the settings slider keeps it in
`[0.05, 0.50]`), is zero whenever `currentCash ≤ minCashReserve`, and the
gating boolean holds exactly when the estimate reaches `$100,000`. -/
theorem auto_budget_gating (cash reserve pct : ℚ) :
    (0 ≤ pct → 0 ≤ estimatedBudget cash reserve pct) ∧
    (cash ≤ reserve → estimatedBudget cash reserve pct = 0) ∧
    (canAffordRealisticProduction cash reserve pct = true ↔
      100000 ≤ estimatedBudget cash reserve pct) := by
  refine ⟨?_, ?_, ?_⟩
  · intro hp
    exact mul_nonneg (le_max_left 0 _) hp
  · intro hc
    rw [estimatedBudget, max_eq_left (sub_nonpos.mpr hc), zero_mul]
  · rw [canAffordRealisticProduction]
    exact decide_eq_true_iff

/-- Concrete instance of `auto_budget_gating`: with `$50,000` cash and a
`$100,000` reserve the estimate is zero. -/
theorem auto_budget_gating_witness :
    estimatedBudget 50000 100000 (1/5) = 0 :=
  (auto_budget_gating 50000 100000 (1/5)).2.1 (by norm_num)

/-! ### Portfolio aggregation — src/RealCompaniesModal.tsx lines 31-58 -/

/-- The fields of a `RealCompany` used by the portfolio summary. -/
structure RealCompany where
  marketValue : ℚ
  currentIncome : ℚ
  sharesOwned : ℚ

/-- src/RealCompaniesModal.tsx lines 31-34:
`realCompanies.filter(company => company.sharesOwned > 0)`. -/
def ownedCompanies (cs : List RealCompany) : List RealCompany :=
  cs.filter (fun c => decide (0 < c.sharesOwned))

/-- src/RealCompaniesModal.tsx lines 41-46:
`ownedCompanies.reduce((total, c) => total + (c.marketValue * c.sharesOwned / 100), 0)`. -/
def portfolioValue (cs : List RealCompany) : ℚ :=
  (ownedCompanies cs).foldl (fun total c => total + c.marketValue * c.sharesOwned / 100) 0

/-- src/RealCompaniesModal.tsx lines 48-51:
`ownedCompanies.reduce((total, c) => total + c.sharesOwned, 0)`. -/
def totalShares (cs : List RealCompany) : ℚ :=
  (ownedCompanies cs).foldl (fun total c => total + c.sharesOwned) 0

/-- src/RealCompaniesModal.tsx lines 53-58:
`ownedCompanies.reduce((total, c) => total + (c.currentIncome * c.sharesOwned / 100 * 86400), 0)`. -/
def dailyIncome (cs : List RealCompany) : ℚ :=
  (ownedCompanies cs).foldl
    (fun total c => total + c.currentIncome * c.sharesOwned / 100 * 86400) 0

/-- A left fold accumulating `f` over a list is the sum of `f`. -/
theorem foldl_add_eq_sum (f : RealCompany → ℚ) (l : List RealCompany) (a : ℚ) :
    l.foldl (fun total c => total + f c) a = a + (l.map f).sum := by
  induction l generalizing a with
  | nil => simp
  | cons c l ih =>
    simp only [List.foldl_cons, List.map_cons, List.sum_cons, ih (a + f c)]
    ring

/-- C10: The portfolio summary aggregates exactly the companies with
`sharesOwned > 0`: `portfolioValue` is the sum of
`marketValue × sharesOwned / 100`, `totalShares` the sum of `sharesOwned`,
and `dailyIncome` the sum of `currentIncome × sharesOwned / 100 × 86400`
over those companies. -/
theorem portfolio_aggregation (cs : List RealCompany) :
    portfolioValue cs =
      ((ownedCompanies cs).map (fun c => c.marketValue * c.sharesOwned / 100)).sum ∧
    totalShares cs = ((ownedCompanies cs).map (fun c => c.sharesOwned)).sum ∧
    dailyIncome cs =
      ((ownedCompanies cs).map
        (fun c => c.currentIncome * c.sharesOwned / 100 * 86400)).sum ∧
    (∀ c ∈ ownedCompanies cs, 0 < c.sharesOwned) ∧
    (∀ c ∈ cs, 0 < c.sharesOwned → c ∈ ownedCompanies cs) := by
  refine ⟨?_, ?_, ?_, ?_, ?_⟩
  · rw [portfolioValue, foldl_add_eq_sum, zero_add]
  · rw [totalShares, foldl_add_eq_sum, zero_add]
  · rw [dailyIncome, foldl_add_eq_sum, zero_add]
  · intro c hc
    rw [ownedCompanies, List.mem_filter] at hc
    exact of_decide_eq_true hc.2
  · intro c hc hpos
    rw [ownedCompanies, List.mem_filter]
    exact ⟨hc, decide_eq_true hpos⟩

/-- Concrete instance of `portfolio_aggregation`: a two-company list where
only the first is owned sums only the first. -/
theorem portfolio_aggregation_witness :
    ⟨1000000, 2, 20⟩ ∈
      ownedCompanies [⟨1000000, 2, 20⟩, (⟨500000, 1, 0⟩ : RealCompany)] :=
  (portfolio_aggregation [⟨1000000, 2, 20⟩, ⟨500000, 1, 0⟩]).2.2.2.2
    ⟨1000000, 2, 20⟩ (by simp) (by norm_num)

end Indle
